import Mathlib

/-!
Shallow embedding of the Rift Runner simulation core from
`src/2025_DevMain.rs` (the console engine; the two rendering-bound
variants re-derive subsets of the same logic and are excluded by the
specification).

Modelling conventions:
* Rust `i32` values are modelled as `Int`; every quantity that the
  claims touch stays far away from the `i32` range bounds, so wrapping
  never matters.
* `HashMap<HexCoord, V>` is modelled as an association list
  `List (HexCoord × V)` with the usual lookup / insert-or-replace /
  erase operations (`alookup`, `ains`, `aerase`), which implement the
  observable `HashMap` behaviour used by the source (`contains_key`,
  `get`, `insert` replacing an existing key, `remove`).  Where the
  source iterates a `HashMap` (an unspecified order), the embedding
  iterates the association list; the claims that depend on a map
  iteration are existential, so one concrete order suffices.
* Every call of the thread-local random generator is replaced by an
  explicit draw parameter: a plain value for a single `gen_range`
  call, or an oracle `HexCoord → _` for draws made once per visited
  hex.  Theorems constrain the draws to the generator range where
  that matters.
* `Rng::gen_bool(p)` takes an `f64` and is documented to panic unless
  `0 ≤ p ≤ 1`.  The spawn-chance expression `0.6 + cycle / 15.0` is
  modelled in exact rational arithmetic; the `f64` evaluation differs
  from the rational value by far less than `1/15`, so the comparison
  against `1` is unaffected.
-/

/-- Rust struct `HexCoord { q: i32, r: i32 }` (axial hex coordinates). -/
structure HexCoord where
  q : Int
  r : Int
deriving DecidableEq

/-- Rust `HexCoord::distance`:
`((q1-q2).abs() + (r1-r2).abs() + (q1+r1-q2-r2).abs()) / 2`.
The numerator is non-negative, so Rust truncating division agrees with
`Int` division. -/
def HexCoord.distance (a b : HexCoord) : Int :=
  (|a.q - b.q| + |a.r - b.r| + |a.q + a.r - b.q - b.r|) / 2

/-- Rust `HexCoord::neighbors`, in the fixed source order. -/
def HexCoord.neighbors (c : HexCoord) : List HexCoord :=
  [⟨c.q + 1, c.r⟩, ⟨c.q - 1, c.r⟩, ⟨c.q, c.r + 1⟩, ⟨c.q, c.r - 1⟩,
   ⟨c.q + 1, c.r - 1⟩, ⟨c.q - 1, c.r + 1⟩]

/-- `HashMap::get` on the association-list model. -/
def alookup {α : Type} (k : HexCoord) : List (HexCoord × α) → Option α
  | [] => none
  | (k', v) :: t => if k' = k then some v else alookup k t

/-- `HashMap::contains_key` on the association-list model. -/
def acontains {α : Type} (k : HexCoord) (m : List (HexCoord × α)) : Bool :=
  (alookup k m).isSome

/-- `HashMap::insert` on the association-list model: replaces the value
at an existing key, otherwise appends the new binding. -/
def ains {α : Type} (k : HexCoord) (v : α) : List (HexCoord × α) → List (HexCoord × α)
  | [] => [(k, v)]
  | (k', v') :: t => if k' = k then (k, v) :: t else (k', v') :: ains k v t

/-- `HashMap::remove` on the association-list model. -/
def aerase {α : Type} (k : HexCoord) : List (HexCoord × α) → List (HexCoord × α)
  | [] => []
  | (k', v') :: t => if k' = k then t else (k', v') :: aerase k t

/-- Rust struct `Planet`. -/
structure Planet where
  name : String
  center : HexCoord
  hexes : List HexCoord
  foe_type : String
  foe_strength : Int
  effect : String
deriving DecidableEq

/-- Rust `Planet::new(cycle, center)`.  `strengthDraw` is the
`rng.gen_range(1..=3)` draw used for `foe_strength`.  The Rust `match`
on `cycle` sends `1..=5` to Gloopers, `6..=10` to Staregazers and
everything else (including non-positive cycles) to Eyekings. -/
def Planet.new (cycle : Int) (center : HexCoord) (strengthDraw : Int) : Planet :=
  let info :=
    if 1 ≤ cycle ∧ cycle ≤ 5 then
      ("Slime Pits", "Gloopers", "Acid Pools: Foes spit acid")
    else if 6 ≤ cycle ∧ cycle ≤ 10 then
      ("Triad Moons", "Staregazers", "Jumpscare Shadows: Sudden spawns")
    else
      ("Green Abyss", "Eyekings", "Triple Threat: Acid + Jumpscares")
  { name := info.1
    center := center
    hexes := [center, ⟨center.q + 1, center.r⟩, ⟨center.q - 1, center.r⟩,
      ⟨center.q, center.r + 1⟩, ⟨center.q, center.r - 1⟩,
      ⟨center.q + 1, center.r - 1⟩, ⟨center.q - 1, center.r + 1⟩]
    foe_type := info.2.1
    foe_strength := cycle * strengthDraw
    effect := info.2.2 }

/-- Rust `Planet::contains`. -/
def Planet.containsHex (p : Planet) (c : HexCoord) : Bool :=
  p.hexes.contains c

/-- Rust struct `RiftRunner` (the aggregate simulation state).
`fields` values are the field-type codes 1 = pulse, 3 = weave,
4 = temporal; `ethereals` values are essence. -/
structure RiftRunner where
  fields : List (HexCoord × Int)
  ethereals : List (HexCoord × Int)
  stasis_fields : List (HexCoord × Bool)
  planets : List Planet
  current_planet : Nat
  core_shard : HexCoord
  rift_energy : Int
  cycle : Int
  foes_dissolved : Int
  core_slowed : Bool
deriving DecidableEq

/-- Rust `RiftRunner::new()`; `strengthDraw` is the draw inside
`Planet::new(1, (0,0))`. -/
def RiftRunner.new (strengthDraw : Int) : RiftRunner :=
  { fields := []
    ethereals := []
    stasis_fields := []
    planets := [Planet.new 1 ⟨0, 0⟩ strengthDraw]
    current_planet := 0
    core_shard := ⟨0, 0⟩
    rift_energy := 50
    cycle := 1
    foes_dissolved := 0
    core_slowed := false }

/-- Rust `RiftRunner::get_field_cost`; `jitter` is the bounded
`gen_range` draw (±3 for pulse, ±4 for weave, ±5 for temporal),
re-rolled on every call in the source. -/
def getFieldCost (s : RiftRunner) (field_type jitter : Int) : Int :=
  if field_type = 1 then 15 + s.cycle * 2 + jitter
  else if field_type = 3 then 40 + s.cycle * 5 + jitter
  else if field_type = 4 then 55 + s.cycle * 8 + jitter
  else 0

/-- Rust `RiftRunner::is_on_planet`:
`self.planets[self.current_planet].contains(coord)`.  All reachable
states keep `current_planet` in range, so the out-of-range case is
never exercised by the theorems below. -/
def isOnPlanet (s : RiftRunner) (c : HexCoord) : Bool :=
  match s.planets.get? s.current_planet with
  | some p => p.containsHex c
  | none => false

/-- Rust `RiftRunner::deploy_field`.  The cost is quoted once at the
top of the call via `get_field_cost` (with draw `jitter`); the guard
is, in source order, `rift_energy >= cost`, `!fields.contains_key`,
`is_on_planet`; on success the field is inserted and the energy
debited, otherwise only a message is printed and nothing changes. -/
def deployField (s : RiftRunner) (q r field_type jitter : Int) : RiftRunner :=
  let coord : HexCoord := ⟨q, r⟩
  let cost := getFieldCost s field_type jitter
  if cost ≤ s.rift_energy ∧ acontains coord s.fields = false ∧ isOnPlanet s coord = true then
    { s with fields := ains coord field_type s.fields
             rift_energy := s.rift_energy - cost }
  else s

/-- Rust `RiftRunner::add_rift_energy`. -/
def addRiftEnergy (s : RiftRunner) (energy : Int) : RiftRunner :=
  { s with rift_energy := s.rift_energy + energy }

/-- The spawn probability `0.6 + (cycle as f64) / 15.0` from
`RiftRunner::spawn_ethereal`, in exact rational arithmetic. -/
def spawnChance (cycle : Int) : ℚ :=
  3 / 5 + (cycle : ℚ) / 15

/-- Model of `rand::Rng::gen_bool`: the generator documents a panic
unless `0 ≤ p ≤ 1`; the panic is modelled as `Except.error`, a valid
call returns the externally supplied draw. -/
def genBool (p : ℚ) (draw : Bool) : Except String Bool :=
  if 0 ≤ p ∧ p ≤ 1 then Except.ok draw
  else Except.error "gen_bool requires a probability in the unit range"

/-- One evaluation of the per-hex spawn trigger
`rng.gen_bool(spawn_chance)` in `RiftRunner::spawn_ethereal`. -/
def spawnTrigger (cycle : Int) (draw : Bool) : Except String Bool :=
  genBool (spawnChance cycle) draw

/-- The hex-scanning loop of `RiftRunner::spawn_ethereal` (lines
137-144): for each planet hex in order, a fresh `gen_bool` draw is
made (modelled by the oracle `draw`, valid while the spawn chance is
a probability), and the loop breaks at the first hex whose own draw
succeeds and that is field-free, hostile-free and not the core shard
hex.  Returns the chosen hex, if any. -/
def spawnScan (fields eths : List (HexCoord × Int)) (core : HexCoord)
    (draw : HexCoord → Bool) : List HexCoord → Option HexCoord
  | [] => none
  | h :: t =>
    if draw h && !acontains h fields && !acontains h eths && !decide (h = core) then
      some h
    else spawnScan fields eths core draw t

/-- The main-spawn part of `RiftRunner::spawn_ethereal` (the separate
jumpscare block, lines 146-154, is an independent second spawn and is
not needed by the claims).  `essenceDraw` is the
`rng.gen_range(0..cycle)` draw. -/
def spawnEthereal (s : RiftRunner) (draw : HexCoord → Bool) (essenceDraw : Int) : RiftRunner :=
  match s.planets.get? s.current_planet with
  | none => s
  | some p =>
    match spawnScan s.fields s.ethereals s.core_shard draw p.hexes with
    | some h => { s with ethereals := ains h (p.foe_strength + essenceDraw) s.ethereals }
    | none => s

/-- The pulse-field arm of `RiftRunner::update` (lines 247-259) for a
single field at `coord`: a radius is drawn from `[1,2]`, then the six
`coord.neighbors()` are scanned; a neighbor holding a hostile whose
distance to `coord` is at most the radius takes a fresh `[1,4]` damage
draw (`dmg` oracle), and is queued for removal when its essence drops
to `≤ 0`.  Returns the updated hostile map and the removal queue. -/
def pulseResolve (eths : List (HexCoord × Int)) (coord : HexCoord) (radius : Int)
    (dmg : HexCoord → Int) : List (HexCoord × Int) × List HexCoord :=
  coord.neighbors.foldl
    (fun acc n =>
      match alookup n acc.1 with
      | some v =>
          if n.distance coord ≤ radius then
            let v' := v - dmg n
            (ains n v' acc.1, if v' ≤ 0 then acc.2 ++ [n] else acc.2)
          else acc
      | none => acc)
    (eths, [])

/-- Lines 313-317 of `RiftRunner::update`: each queued removal deletes
the hostile and increments `foes_dissolved`. -/
def applyRemovals (s : RiftRunner) (queue : List HexCoord) : RiftRunner :=
  queue.foldl
    (fun st c =>
      { st with ethereals := aerase c st.ethereals
                foes_dissolved := st.foes_dissolved + 1 })
    s

/-- Outcome of one hostile acid-spit scan. -/
inductive SpitOutcome where
  | slow
  | corrode (t : HexCoord)
  | idle
deriving DecidableEq

/-- The acid-spit neighbor scan of `RiftRunner::update` (lines
324-336): walk the targets in order; a target equal to the core shard
slows the core and breaks; otherwise a target holding a field breaks
with a corrosion only when its fresh 0.3 draw (`roll` oracle)
succeeds — on a failed draw the walk continues. -/
def acidSpitScan (core : HexCoord) (fields : List (HexCoord × Int))
    (roll : HexCoord → Bool) : List HexCoord → SpitOutcome
  | [] => .idle
  | t :: rest =>
    if t = core then .slow
    else if acontains t fields && roll t then .corrode t
    else acidSpitScan core fields roll rest

/-- Acid spit for one hostile at `coord`: scan its six neighbors. -/
def acidSpit (coord core : HexCoord) (fields : List (HexCoord × Int))
    (roll : HexCoord → Bool) : SpitOutcome :=
  acidSpitScan core fields roll coord.neighbors

/-- The destination choice of hostile movement (lines 340-351):
start from the hostile hex itself and take each neighbor, in the fixed
order, that is on-planet, field-free and strictly closer to the core
shard than the best candidate so far. -/
def chooseMove (s : RiftRunner) (coord : HexCoord) : HexCoord :=
  coord.neighbors.foldl
    (fun best n =>
      if isOnPlanet s n && !acontains n s.fields
          && decide (n.distance s.core_shard < best.distance s.core_shard) then n
      else best)
    coord

/-- The hostile movement scan (lines 339-360): iterate the hostile
map; a hostile whose chosen destination differs from its hex either
pops a stasis marker on the destination (mutating the marker map
mid-scan) or, when the destination is hostile-free in the PRE-MOVE
map, queues the move `(from, to, essence)`. -/
def movementScan (s : RiftRunner) : List (HexCoord × HexCoord × Int) × List (HexCoord × Bool) :=
  s.ethereals.foldl
    (fun acc ce =>
      let next := chooseMove s ce.1
      if next = ce.1 then acc
      else if acontains next acc.2 then (acc.1, aerase next acc.2)
      else if acontains next s.ethereals then acc
      else (acc.1 ++ [(ce.1, next, ce.2)], acc.2))
    ([], s.stasis_fields)

/-- Lines 361-364: queued moves are applied in order; `HashMap::insert`
overwrites an existing entry at the destination. -/
def applyMoves (eths : List (HexCoord × Int))
    (moves : List (HexCoord × HexCoord × Int)) : List (HexCoord × Int) :=
  moves.foldl (fun m t => ains t.2.1 t.2.2 (aerase t.1 m)) eths

/-- The whole movement sub-phase: scan, then apply the queued moves. -/
def movementPhase (s : RiftRunner) : RiftRunner :=
  let r := movementScan s
  { s with ethereals := applyMoves s.ethereals r.1
           stasis_fields := r.2 }

/-- Rust `RiftRunner::jump_to_next_planet`; `dq`, `dr` are the
`gen_range(2..=4)` and `gen_range(-2..=2)` draws, `strengthDraw` the
draw inside `Planet::new`.  The planet list is never empty, so the
`last().unwrap()` cannot fail on reachable states. -/
def jumpToNextPlanet (s : RiftRunner) (dq dr strengthDraw : Int) : RiftRunner :=
  let cp := s.current_planet + 1
  if s.planets.length ≤ cp then
    match s.planets.getLast? with
    | some lastp =>
      let newCenter : HexCoord := ⟨lastp.center.q + dq, lastp.center.r + dr⟩
      { s with current_planet := cp
               planets := s.planets ++ [Planet.new s.cycle newCenter strengthDraw]
               core_shard := newCenter
               fields := []
               ethereals := []
               stasis_fields := []
               core_slowed := false }
    | none => { s with current_planet := cp }
  else { s with current_planet := cp }

/-- Result of `RiftRunner::check_cycle_progression`: the source calls
`std::process::exit(0)` on victory, so the victory constructor carries
the state as it stands at that instant. -/
inductive CycleOutcome where
  | victory (s : RiftRunner)
  | next (s : RiftRunner)
deriving DecidableEq

/-- Rust `RiftRunner::check_cycle_progression`; `dq dr strengthDraw`
feed `jump_to_next_planet` and `energyDraw` is the `gen_range(50..=100)`
draw credited after a non-victory advance. -/
def checkCycleProgression (s : RiftRunner) (dq dr strengthDraw energyDraw : Int) : CycleOutcome :=
  if s.cycle * 3 ≤ s.foes_dissolved then
    let s1 := { s with cycle := s.cycle + 1 }
    if 15 < s1.cycle then .victory s1
    else .next (addRiftEnergy (jumpToNextPlanet s1 dq dr strengthDraw) energyDraw)
  else .next s

/-- The selection guard of `EntropyCore::play`:
`idx1 < 5 && idx2 < 5 && idx1 != idx2 && quanta[idx1] == quanta[idx2]`.
The source array always has length 5. -/
def entropyMatch (quanta : List String) (i1 i2 : Nat) : Bool :=
  decide (i1 < 5) && decide (i2 < 5) && !decide (i1 = i2)
    && decide (quanta.getD i1 "" = quanta.getD i2 "")

/-- The reward core of `EntropyCore::play` after input parsing: on a
match both selected slots are overwritten with the sentinel tag `XX`
and the reward is `gen_range(3..=7)` (`e`) plus, when the 0.25 draw
(`bf`) fires, `gen_range(1..=4)` (`bd`); otherwise the reward is 0 and
the slots are untouched.  Returns the updated slots and the reward. -/
def entropyPlay (quanta : List String) (i1 i2 : Nat) (e : Int) (bf : Bool) (bd : Int) :
    List String × Int :=
  if entropyMatch quanta i1 i2 then
    ((quanta.set i1 "XX").set i2 "XX", e + if bf then bd else 0)
  else (quanta, 0)

/-- Every mutation of `rift_energy` in `src/2025_DevMain.rs`, as a
step relation:
* `deploy` — the guarded debit in `deploy_field` (line 110);
* `weave` — the weave-field credit `gen_range(10..=25)` (line 264);
* `gloopers` — the Gloopers passive credit `gen_range(10..=20)`
  (line 374);
* `progression` — a non-victory `check_cycle_progression`, whose
  credit `gen_range(50..=100)` is inside `checkCycleProgression`;
* `minigame` — `add_rift_energy` applied to an `EntropyCore::play`
  reward with draws in the generator ranges (lines 521-522);
* `frame` — any other state change: no other line touches
  `rift_energy`. -/
inductive EnergyStep : RiftRunner → RiftRunner → Prop where
  | deploy (s : RiftRunner) (q r ft j : Int) : EnergyStep s (deployField s q r ft j)
  | weave (s : RiftRunner) (d : Int) (h1 : 10 ≤ d) (h2 : d ≤ 25) :
      EnergyStep s (addRiftEnergy s d)
  | gloopers (s : RiftRunner) (d : Int) (h1 : 10 ≤ d) (h2 : d ≤ 20) :
      EnergyStep s (addRiftEnergy s d)
  | progression (s s' : RiftRunner) (dq dr sd de : Int) (h1 : 50 ≤ de) (h2 : de ≤ 100)
      (h : checkCycleProgression s dq dr sd de = CycleOutcome.next s') : EnergyStep s s'
  | minigame (s : RiftRunner) (quanta : List String) (i1 i2 : Nat) (e bd : Int) (bf : Bool)
      (h1 : 3 ≤ e) (h2 : e ≤ 7) (h3 : 1 ≤ bd) (h4 : bd ≤ 4) :
      EnergyStep s (addRiftEnergy s (entropyPlay quanta i1 i2 e bf bd).2)
  | frame (s s' : RiftRunner) (h : s'.rift_energy = s.rift_energy) : EnergyStep s s'

/-- States reachable from `RiftRunner::new` through the energy-step
relation (the initial strength draw is in the `gen_range(1..=3)`
range). -/
inductive ReachableRun : RiftRunner → Prop where
  | start (sd : Int) (h1 : 1 ≤ sd) (h2 : sd ≤ 3) : ReachableRun (RiftRunner.new sd)
  | step (s s' : RiftRunner) (hr : ReachableRun s) (hs : EnergyStep s s') : ReachableRun s'

/-- A concrete state realising the move-collision scenario: the
starting planet with strength draw 1 (`foe_strength = 1`), the core
shard at `(1,-1)` and two hostiles of essence 1 at `(-1,0)` and
`(-1,1)`, both two hexes from the core.  Every component is produced
by the source on the cycle-1 planet: each spawn there has essence
`foe_strength + gen_range(0..1) = 1 + 0 = 1` (Gloopers get no
jumpscare spawns), `(1,-1)` is a planet hex the core random walk can
reach from `(0,0)`, and `(-1,0)` and `(-1,1)` are free planet hexes
the spawn scan can select on two successive ticks. -/
def collisionState : RiftRunner :=
  { RiftRunner.new 1 with
      core_shard := ⟨1, -1⟩
      ethereals := [(⟨-1, 0⟩, 1), (⟨-1, 1⟩, 1)] }

/-! ### Helper lemmas -/

/-- Inserting a key that is absent from the map grows it by one binding. -/
theorem ains_length_of_acontains_false {α : Type} (k : HexCoord) (v : α) :
    ∀ m : List (HexCoord × α), acontains k m = false →
      (ains k v m).length = m.length + 1 := by
  intro m
  induction m with
  | nil => intro _; rfl
  | cons p t ih =>
    obtain ⟨k', v'⟩ := p
    intro h
    by_cases hk : k' = k
    · simp [acontains, alookup, hk] at h
    · have ht : acontains k t = false := by simpa [acontains, alookup, hk] using h
      simp [ains, hk, List.length_cons, ih ht]

/-! ### Claim theorems -/

/-- C1: evaluation of the pulse-field arm at the failing input.  With a
Pulse field at `(1,0)`, a hostile of essence 1 at `(-1,0)` — hex
distance 2 — a drawn radius of 2 and any damage draw, the pulse arm
touches nothing: the source scans only the six adjacent hexes, so the
distance-2 hostile keeps its essence, no removal is queued, and
`foes_dissolved` stays 0 — against the claim that every hostile within
the drawn radius is damaged and a dying one removed. -/
theorem c1_pulse_distance_two_unharmed :
    pulseResolve [(⟨-1, 0⟩, 1)] ⟨1, 0⟩ 2 (fun _ => 4) = ([(⟨-1, 0⟩, 1)], []) ∧
    HexCoord.distance ⟨-1, 0⟩ ⟨1, 0⟩ = 2 ∧
    (applyRemovals
      { RiftRunner.new 1 with fields := [(⟨1, 0⟩, 1)], ethereals := [(⟨-1, 0⟩, 1)] }
      (pulseResolve [(⟨-1, 0⟩, 1)] ⟨1, 0⟩ 2 (fun _ => 4)).2).foes_dissolved = 0 := by
  decide

/-- C2: at cycle 7 the spawn probability `0.6 + cycle/15` exceeds 1,
and `Rng::gen_bool` rejects such an argument (a panic in the rand
crate) instead of treating it as certainty, so every evaluation of the
per-hex spawn trigger at cycle 7 faults. -/
theorem c2_spawn_chance_exceeds_one_faults :
    1 < spawnChance 7 ∧
    ∀ d : Bool, spawnTrigger 7 d =
      Except.error "gen_bool requires a probability in the unit range" := by
  constructor
  · norm_num [spawnChance]
  · intro d
    simp only [spawnTrigger, genBool]
    rw [if_neg]
    push_neg
    intro _
    norm_num [spawnChance]

/-- C3 counterexample: `deploy_field` checks neither hostiles nor the
core shard.  Deploying on the hostile-occupied hex `(1,0)` succeeds
and leaves the hostile in place, and deploying on the core shard hex
`(0,0)` succeeds as well. -/
theorem c3_deploy_ignores_hostile_and_core :
    alookup ⟨1, 0⟩
      (deployField { RiftRunner.new 1 with ethereals := [(⟨1, 0⟩, 5)] } 1 0 1 0).fields
        = some 1 ∧
    alookup ⟨1, 0⟩
      (deployField { RiftRunner.new 1 with ethereals := [(⟨1, 0⟩, 5)] } 1 0 1 0).ethereals
        = some 5 ∧
    alookup ⟨0, 0⟩ (deployField (RiftRunner.new 1) 0 0 1 0).fields = some 1 ∧
    (deployField (RiftRunner.new 1) 0 0 1 0).core_shard = ⟨0, 0⟩ := by
  decide

/-- C3 amended: only `spawn_ethereal` enforces full placement
exclusivity — a spawned hex is always field-free, hostile-free and not
the core shard hex — while `deploy_field` validates nothing about
hostiles or the core: its field outcome is unchanged under arbitrary
changes to the hostile map and the core position. -/
theorem c3_placement_checks :
    (∀ (fields eths : List (HexCoord × Int)) (core : HexCoord) (draw : HexCoord → Bool)
        (hexes : List HexCoord) (h : HexCoord),
        spawnScan fields eths core draw hexes = some h →
        acontains h fields = false ∧ acontains h eths = false ∧ h ≠ core) ∧
    (∀ (s : RiftRunner) (eths2 : List (HexCoord × Int)) (c2 : HexCoord) (q r ft j : Int),
        (deployField { s with ethereals := eths2, core_shard := c2 } q r ft j).fields =
          (deployField s q r ft j).fields) := by
  constructor
  · intro fields eths core draw hexes
    induction hexes with
    | nil => intro h hh; simp [spawnScan] at hh
    | cons a t ih =>
      intro h hh
      simp only [spawnScan] at hh
      split at hh
      · rename_i hc
        injection hh with hh'
        subst hh'
        simp only [Bool.and_eq_true, Bool.not_eq_true'] at hc
        refine ⟨hc.1.1.2, hc.1.2, ?_⟩
        have hd := hc.2
        simpa using of_decide_eq_false hd
      · exact ih h hh
  · intro s eths2 c2 q r ft j
    simp only [deployField]
    split
    · split
      · rfl
      · rename_i hc1 hc2
        exact absurd hc1 hc2
    · split
      · rename_i hc1 hc2
        exact absurd hc2 hc1
      · rfl

/-- Witness for C3: a concrete successful spawn scan, checked through
`c3_placement_checks` itself. -/
theorem c3_placement_checks_witness :
    acontains ⟨-1, 0⟩ ([] : List (HexCoord × Int)) = false ∧
    (⟨-1, 0⟩ : HexCoord) ≠ ⟨0, 0⟩ :=
  let H := c3_placement_checks.1 [] [] ⟨0, 0⟩ (fun h => decide (h = ⟨-1, 0⟩))
    (Planet.new 1 ⟨0, 0⟩ 1).hexes ⟨-1, 0⟩ (by decide)
  ⟨H.1, H.2.2⟩

/-- C4: a `deploy_field` call changes the state exactly when the
quoted cost is affordable, the target hex holds no field and the hex
is on the current planet; on success the energy drops by exactly the
quoted cost, the field is inserted and every other component of the
state is untouched; on failure the entire state is unchanged. -/
theorem c4_deploy_field_spec (s : RiftRunner) (q r ft j : Int) :
    (deployField s q r ft j ≠ s ↔
      (getFieldCost s ft j ≤ s.rift_energy ∧ acontains ⟨q, r⟩ s.fields = false ∧
        isOnPlanet s ⟨q, r⟩ = true)) ∧
    ((getFieldCost s ft j ≤ s.rift_energy ∧ acontains ⟨q, r⟩ s.fields = false ∧
        isOnPlanet s ⟨q, r⟩ = true) →
      (deployField s q r ft j).rift_energy = s.rift_energy - getFieldCost s ft j ∧
      (deployField s q r ft j).fields = ains ⟨q, r⟩ ft s.fields ∧
      (deployField s q r ft j).ethereals = s.ethereals ∧
      (deployField s q r ft j).stasis_fields = s.stasis_fields ∧
      (deployField s q r ft j).planets = s.planets ∧
      (deployField s q r ft j).current_planet = s.current_planet ∧
      (deployField s q r ft j).core_shard = s.core_shard ∧
      (deployField s q r ft j).cycle = s.cycle ∧
      (deployField s q r ft j).foes_dissolved = s.foes_dissolved ∧
      (deployField s q r ft j).core_slowed = s.core_slowed) ∧
    (¬(getFieldCost s ft j ≤ s.rift_energy ∧ acontains ⟨q, r⟩ s.fields = false ∧
        isOnPlanet s ⟨q, r⟩ = true) →
      deployField s q r ft j = s) := by
  by_cases hg : (getFieldCost s ft j ≤ s.rift_energy ∧ acontains ⟨q, r⟩ s.fields = false ∧
      isOnPlanet s ⟨q, r⟩ = true)
  · have hd : deployField s q r ft j =
        { s with fields := ains ⟨q, r⟩ ft s.fields
                 rift_energy := s.rift_energy - getFieldCost s ft j } := by
      simp only [deployField]
      rw [if_pos hg]
    refine ⟨⟨fun _ => hg, fun _ => ?_⟩, fun _ => ?_, fun hng => absurd hg hng⟩
    · rw [hd]
      intro heq
      have hf : ains ⟨q, r⟩ ft s.fields = s.fields := congrArg RiftRunner.fields heq
      have hl := congrArg List.length hf
      rw [ains_length_of_acontains_false _ _ _ hg.2.1] at hl
      omega
    · rw [hd]
      exact ⟨rfl, rfl, rfl, rfl, rfl, rfl, rfl, rfl, rfl, rfl⟩
  · have hd : deployField s q r ft j = s := by
      simp only [deployField]
      rw [if_neg hg]
    exact ⟨⟨fun hne => absurd hd hne, fun hgg => absurd hgg hg⟩,
      fun hgg => absurd hgg hg, fun _ => hd⟩

/-- Witness for C4: deploying a pulse field at `(1,0)` from the fresh
state (cost `15 + 2 + 0 = 17`) succeeds and debits to 33. -/
theorem c4_deploy_field_spec_witness :
    deployField (RiftRunner.new 1) 1 0 1 0 ≠ RiftRunner.new 1 ∧
    (deployField (RiftRunner.new 1) 1 0 1 0).rift_energy = 33 := by
  have H := c4_deploy_field_spec (RiftRunner.new 1) 1 0 1 0
  refine ⟨H.1.mpr (by decide), ?_⟩
  rw [(H.2.1 (by decide)).1]
  decide

/-- C5 counterexample: a hostile at `(0,0)` whose first neighbor
`(1,0)` holds a field while the second neighbor `(-1,0)` is the core
shard.  With a failed corrosion roll the scan does NOT stop at the
field: it walks on and slows the core — against the claim that a later
neighbor is never acted on when an earlier neighbor held a field. -/
theorem c5_scan_continues_past_failed_roll :
    acidSpit ⟨0, 0⟩ ⟨-1, 0⟩ [(⟨1, 0⟩, 1)] (fun _ => false) = SpitOutcome.slow ∧
    HexCoord.neighbors ⟨0, 0⟩ =
      [⟨1, 0⟩, ⟨-1, 0⟩, ⟨0, 1⟩, ⟨0, -1⟩, ⟨1, -1⟩, ⟨-1, 1⟩] ∧
    acontains ⟨1, 0⟩ [(⟨1, 0⟩, (1 : Int))] = true ∧
    (⟨1, 0⟩ : HexCoord) ≠ ⟨-1, 0⟩ := by
  decide

/-- C5 amended: the acid-spit scan stops at the first neighbor that
either equals the core shard hex (slow) or holds a field AND passes
its 0.3 corrosion roll (corrode); a field-holding neighbor whose roll
fails does not stop the scan.  At most one outcome is produced. -/
theorem c5_acid_spit_first_success (core : HexCoord) (fields : List (HexCoord × Int))
    (roll : HexCoord → Bool) (targets : List HexCoord) :
    acidSpitScan core fields roll targets =
      match targets.find? (fun t => decide (t = core) || (acontains t fields && roll t)) with
      | some t => if t = core then SpitOutcome.slow else SpitOutcome.corrode t
      | none => SpitOutcome.idle := by
  induction targets with
  | nil => rfl
  | cons t rest ih =>
    by_cases h1 : t = core
    · simp [acidSpitScan, List.find?_cons, h1]
    · by_cases h2 : (acontains t fields && roll t) = true
      · simp [acidSpitScan, List.find?_cons, h1, h2]
      · simp only [Bool.not_eq_true] at h2
        simp [acidSpitScan, List.find?_cons, h1, h2, ih]

/-- C6 counterexample: on the starting planet with the core at the
center and every other hex free, a per-hex draw that fails at `(1,0)`
and succeeds at `(-1,0)` spawns the hostile at `(-1,0)`, although
`(1,0)` is the first qualifying (field-free, hostile-free, non-core)
hex of the scan order — so the spawn is not a single trigger that
lands on the first qualifying hex. -/
theorem c6_qualifying_hex_skipped :
    spawnScan [] [] ⟨0, 0⟩ (fun h => decide (h = ⟨-1, 0⟩)) (Planet.new 1 ⟨0, 0⟩ 1).hexes
      = some ⟨-1, 0⟩ ∧
    (Planet.new 1 ⟨0, 0⟩ 1).hexes.find?
      (fun h => !acontains h ([] : List (HexCoord × Int))
        && !acontains h ([] : List (HexCoord × Int)) && !decide (h = (⟨0, 0⟩ : HexCoord)))
      = some ⟨1, 0⟩ ∧
    (⟨1, 0⟩ : HexCoord) ≠ ⟨-1, 0⟩ := by
  decide

/-- C6 amended: each planet hex gets its own independent spawn draw,
in the fixed scan order, and the hostile spawns at the first hex whose
own draw succeeds and that is field-free, hostile-free and not the
core shard hex (a qualifying hex whose draw fails is skipped); on a
spawn the hostile is inserted with essence
`planet.foe_strength + essenceDraw` and the fields are untouched. -/
theorem c6_spawn_scan_spec :
    (∀ (fields eths : List (HexCoord × Int)) (core : HexCoord) (draw : HexCoord → Bool)
        (hexes : List HexCoord),
        spawnScan fields eths core draw hexes =
          hexes.find? (fun h => draw h && !acontains h fields && !acontains h eths
            && !decide (h = core))) ∧
    (∀ (s : RiftRunner) (draw : HexCoord → Bool) (essenceDraw : Int) (p : Planet)
        (h : HexCoord),
        s.planets.get? s.current_planet = some p →
        spawnScan s.fields s.ethereals s.core_shard draw p.hexes = some h →
        (spawnEthereal s draw essenceDraw).ethereals =
          ains h (p.foe_strength + essenceDraw) s.ethereals ∧
        (spawnEthereal s draw essenceDraw).fields = s.fields) := by
  constructor
  · intro fields eths core draw hexes
    induction hexes with
    | nil => rfl
    | cons a t ih =>
      by_cases hc : (draw a && !acontains a fields && !acontains a eths
          && !decide (a = core)) = true
      · simp [spawnScan, List.find?_cons, hc]
      · simp only [Bool.not_eq_true] at hc
        simp [spawnScan, List.find?_cons, hc, ih]
  · intro s draw essenceDraw p h hp hs
    simp only [spawnEthereal, hp, hs]
    constructor <;> trivial

/-- Witness for C6: the amended scan applied at the concrete state of
the counterexample inserts the hostile at `(-1,0)` with essence 1. -/
theorem c6_spawn_scan_spec_witness :
    (spawnEthereal (RiftRunner.new 1) (fun h => decide (h = ⟨-1, 0⟩)) 0).ethereals
      = [(⟨-1, 0⟩, 1)] := by
  have H := c6_spawn_scan_spec.2 (RiftRunner.new 1) (fun h => decide (h = ⟨-1, 0⟩)) 0
    (Planet.new 1 ⟨0, 0⟩ 1) ⟨-1, 0⟩ rfl (by decide)
  rw [H.1]
  decide

/-- C7: whenever the progression gate fires and the incremented cycle
exceeds 15, `check_cycle_progression` reports victory with the cycle
counter bumped and EVERY other component of the state unchanged: no
planet advance or creation, no clearing of fields, hostiles or
markers, no core relocation, and no rift-energy credit. -/
theorem c7_victory_terminal (s : RiftRunner) (dq dr sd de : Int)
    (hgate : s.cycle * 3 ≤ s.foes_dissolved) (hvic : 15 < s.cycle + 1) :
    checkCycleProgression s dq dr sd de =
      CycleOutcome.victory { s with cycle := s.cycle + 1 } ∧
    ({ s with cycle := s.cycle + 1 } : RiftRunner).fields = s.fields ∧
    ({ s with cycle := s.cycle + 1 } : RiftRunner).ethereals = s.ethereals ∧
    ({ s with cycle := s.cycle + 1 } : RiftRunner).stasis_fields = s.stasis_fields ∧
    ({ s with cycle := s.cycle + 1 } : RiftRunner).planets = s.planets ∧
    ({ s with cycle := s.cycle + 1 } : RiftRunner).current_planet = s.current_planet ∧
    ({ s with cycle := s.cycle + 1 } : RiftRunner).core_shard = s.core_shard ∧
    ({ s with cycle := s.cycle + 1 } : RiftRunner).rift_energy = s.rift_energy ∧
    ({ s with cycle := s.cycle + 1 } : RiftRunner).foes_dissolved = s.foes_dissolved ∧
    ({ s with cycle := s.cycle + 1 } : RiftRunner).core_slowed = s.core_slowed := by
  refine ⟨?_, rfl, rfl, rfl, rfl, rfl, rfl, rfl, rfl, rfl⟩
  simp only [checkCycleProgression]
  rw [if_pos hgate,
    if_pos (show 15 < ({ s with cycle := s.cycle + 1 } : RiftRunner).cycle from hvic)]

/-- Witness for C7 at a concrete pre-victory state. -/
theorem c7_victory_terminal_witness :
    checkCycleProgression { RiftRunner.new 1 with cycle := 15, foes_dissolved := 45 }
        2 0 1 50 =
      CycleOutcome.victory { RiftRunner.new 1 with cycle := 15 + 1, foes_dissolved := 45 } :=
  (c7_victory_terminal { RiftRunner.new 1 with cycle := 15, foes_dissolved := 45 }
    2 0 1 50 (by decide) (by decide)).1

/-- C8 counterexample: after matching the alpha pair `(0,2)` of
`[alpha, beta, alpha, gamma, delta]`, both slots hold the sentinel
`XX`; selecting the two consumed slots `(0,2)` again MATCHES (the
sentinel equals itself) and pays a fresh non-zero reward — against the
claim that previously consumed slots yield 0. -/
theorem c8_consumed_slots_rematch :
    (entropyPlay ["alpha", "beta", "alpha", "gamma", "delta"] 0 2 3 false 1).1 =
      ["XX", "beta", "XX", "gamma", "delta"] ∧
    (entropyPlay ["XX", "beta", "XX", "gamma", "delta"] 0 2 3 false 1).2 = 3 := by
  decide

/-- C8 amended: a matching pair of two distinct valid indices yields
`base + bonus` (in `[3,11]` for draws in the generator ranges) and
overwrites both slots with the sentinel `XX`; a non-match or invalid
selection yields 0 and changes nothing; a consumed slot never matches
an unconsumed slot, but two distinct consumed slots DO match again and
pay a fresh reward. -/
theorem c8_entropy_play_spec (quanta : List String) (i1 i2 : Nat) (e bd : Int) (bf : Bool) :
    (entropyMatch quanta i1 i2 = true →
      (entropyPlay quanta i1 i2 e bf bd).2 = e + (if bf then bd else 0) ∧
      (entropyPlay quanta i1 i2 e bf bd).1 = (quanta.set i1 "XX").set i2 "XX") ∧
    (entropyMatch quanta i1 i2 = false →
      entropyPlay quanta i1 i2 e bf bd = (quanta, 0)) ∧
    (entropyMatch quanta i1 i2 = true → 3 ≤ e → e ≤ 7 → 1 ≤ bd → bd ≤ 4 →
      3 ≤ (entropyPlay quanta i1 i2 e bf bd).2 ∧ (entropyPlay quanta i1 i2 e bf bd).2 ≤ 11) ∧
    (quanta.getD i1 "" = "XX" → quanta.getD i2 "" ≠ "XX" →
      (entropyPlay quanta i1 i2 e bf bd).2 = 0) ∧
    (i1 < 5 → i2 < 5 → i1 ≠ i2 → quanta.getD i1 "" = "XX" → quanta.getD i2 "" = "XX" →
      (entropyPlay quanta i1 i2 e bf bd).2 = e + (if bf then bd else 0)) := by
  have hpos : entropyMatch quanta i1 i2 = true →
      entropyPlay quanta i1 i2 e bf bd =
        ((quanta.set i1 "XX").set i2 "XX", e + if bf then bd else 0) := by
    intro h
    simp only [entropyPlay]
    rw [if_pos h]
  have hneg : entropyMatch quanta i1 i2 = false →
      entropyPlay quanta i1 i2 e bf bd = (quanta, 0) := by
    intro h
    simp only [entropyPlay]
    rw [if_neg]
    simp [h]
  refine ⟨fun h => by rw [hpos h]; exact ⟨rfl, rfl⟩, fun h => hneg h,
    fun h h3 h7 hb1 hb4 => ?_, fun h4 h5 => ?_, fun ha hb hc hd he => ?_⟩
  · rw [hpos h]
    refine ⟨?_, ?_⟩ <;> cases bf <;> simp <;> omega
  · by_cases hm : entropyMatch quanta i1 i2 = true
    · exfalso
      simp only [entropyMatch, Bool.and_eq_true, Bool.not_eq_true', decide_eq_true_eq,
        decide_eq_false_iff_not] at hm
      exact h5 (by rw [← hm.2, h4])
    · have hm' : entropyMatch quanta i1 i2 = false := by
        revert hm
        cases entropyMatch quanta i1 i2 <;> simp
      rw [hneg hm']
  · have hm : entropyMatch quanta i1 i2 = true := by
      simp only [entropyMatch, Bool.and_eq_true, Bool.not_eq_true', decide_eq_true_eq,
        decide_eq_false_iff_not]
      exact ⟨⟨⟨ha, hb⟩, hc⟩, by rw [hd, he]⟩
    rw [hpos hm]

/-- Witness for C8: a re-match of two consumed slots through the
amended specification pays `4 + 2 = 6`. -/
theorem c8_entropy_play_spec_witness :
    (entropyPlay ["XX", "beta", "XX", "gamma", "delta"] 0 2 4 true 2).2 = 6 := by
  have H := (c8_entropy_play_spec ["XX", "beta", "XX", "gamma", "delta"] 0 2 4 2
    true).2.2.2.2 (by decide) (by decide) (by decide) (by decide) (by decide)
  rw [H]
  decide

/-- C9: with the core shard at `(1,-1)` and essence-1 hostiles at
`(-1,0)` and `(-1,1)` on the starting planet, BOTH hostiles queue a
move to `(0,0)` — the destination is validated only against the
pre-move hostile map — and applying the queued moves in order makes
the second insert overwrite the first mover's entry, so the hostile
count drops from 2 to 1 while `foes_dissolved` is not incremented. -/
theorem c9_move_collision :
    movementScan collisionState =
      ([(⟨-1, 0⟩, ⟨0, 0⟩, 1), (⟨-1, 1⟩, ⟨0, 0⟩, 1)], []) ∧
    (movementPhase collisionState).ethereals = [(⟨0, 0⟩, 1)] ∧
    collisionState.ethereals.length = 2 ∧
    (movementPhase collisionState).ethereals.length = 1 ∧
    (movementPhase collisionState).foes_dissolved = collisionState.foes_dissolved := by
  decide

/-- `jump_to_next_planet` never touches the energy counter. -/
theorem jumpToNextPlanet_rift_energy (s : RiftRunner) (dq dr sd : Int) :
    (jumpToNextPlanet s dq dr sd).rift_energy = s.rift_energy := by
  simp only [jumpToNextPlanet]
  split
  · split <;> rfl
  · rfl

/-- Every energy step preserves non-negativity of `rift_energy`:
the only debit is `deploy_field`, which is guarded by
`rift_energy >= cost`, and every credit adds a draw from a
non-negative range (or a minigame reward, which is 0 or at least the
base draw). -/
theorem energyStep_nonneg {s s' : RiftRunner} (hst : EnergyStep s s')
    (h : 0 ≤ s.rift_energy) : 0 ≤ s'.rift_energy := by
  cases hst with
  | deploy q r ft j =>
    simp only [deployField]
    split
    · rename_i hg
      have hc := hg.1
      show 0 ≤ s.rift_energy - getFieldCost s ft j
      omega
    · exact h
  | weave d h1 h2 =>
    show 0 ≤ s.rift_energy + d
    omega
  | gloopers d h1 h2 =>
    show 0 ≤ s.rift_energy + d
    omega
  | progression s' dq dr sd de h1 h2 hcp =>
    simp only [checkCycleProgression] at hcp
    split at hcp
    · split at hcp
      · simp at hcp
      · injection hcp with hcp'
        subst hcp'
        simp only [addRiftEnergy]
        rw [jumpToNextPlanet_rift_energy]
        show 0 ≤ s.rift_energy + de
        omega
    · injection hcp with hcp'
      subst hcp'
      exact h
  | minigame quanta i1 i2 e bd bf h1 h2 h3 h4 =>
    have hr : 0 ≤ (entropyPlay quanta i1 i2 e bf bd).2 := by
      simp only [entropyPlay]
      split
      · show 0 ≤ e + if bf then bd else 0
        cases bf <;> simp <;> omega
      · show (0 : Int) ≤ 0
        omega
    show 0 ≤ s.rift_energy + (entropyPlay quanta i1 i2 e bf bd).2
    omega
  | frame s' hfe =>
    rw [hfe]
    exact h

/-- C10: `rift_energy` is non-negative in every state reachable from
`RiftRunner::new` (which starts it at 50) through the operations that
touch the energy counter: the guarded `deploy_field` debit, the weave,
Gloopers and progression credits, the minigame reward, and any step
leaving the counter unchanged. -/
theorem c10_rift_energy_nonneg (s : RiftRunner) (h : ReachableRun s) :
    0 ≤ s.rift_energy := by
  induction h with
  | start sd h1 h2 =>
    show (0 : Int) ≤ 50
    omega
  | step a b hr hs ih => exact energyStep_nonneg hs ih

/-- Witness for C10 at the initial state. -/
theorem c10_rift_energy_nonneg_witness : 0 ≤ (RiftRunner.new 1).rift_energy :=
  c10_rift_energy_nonneg (RiftRunner.new 1)
    (ReachableRun.start 1 (by decide) (by decide))
